import Mathlib

/-!
Verification of the motor-efficiency measurement program (`Messung.py`).

The program is embedded shallowly over `ℚ`:

* telemetry snapshots become a structure with the three fields read by the
  code (`avg_input_current`, `rpm` — which carries electrical rpm — and
  `v_in`);
* the environment is a pair of oracles: `Nat → Option Telemetry` giving the
  result of the k-th `get_measurements()` call (`none` = timeout, the only
  failure mode the sampling loop survives), and `Nat → Bool` giving the
  outcome of the k-th `set_duty_cycle` call (`false` = the call raises);
* the unbounded `while True` loops are given explicit fuel; claims about
  halting behaviour are stated per-iteration or for sufficient fuel;
* Python floats become exact rationals; `np.pi` becomes the IEEE-754 double
  nearest π, the exact value numpy uses.
-/

namespace Messung

/-- The IEEE-754 double closest to π, i.e. the exact rational value of
`np.pi` used by the source at lines 115 and 125. -/
def npPi : ℚ := 884279719003555 / 281474976710656

/-- One telemetry snapshot as read by the source (lines 81–83): battery
current `avg_input_current`, electrical rpm in the field named `rpm`, and
bus voltage `v_in`. -/
structure Telemetry where
  avg_input_current : ℚ
  rpm : ℚ
  v_in : ℚ
deriving DecidableEq, Repr

/-- The three accumulator lists of the source (lines 13–16; `efficiencies`
is produced later).  The list called `erpms` stores the *mechanical* rpm
computed at line 86, exactly as in the source. -/
structure Logs where
  currents : List ℚ
  erpms : List ℚ
  voltages : List ℚ
deriving DecidableEq, Repr

/-- The three `append` calls of lines 89–91. -/
def Logs.push (logs : Logs) (current rpm voltage : ℚ) : Logs :=
  { currents := logs.currents ++ [current]
    erpms := logs.erpms ++ [rpm]
    voltages := logs.voltages ++ [voltage] }

/-- All three log lists have the same length. -/
def Logs.balanced (logs : Logs) : Prop :=
  logs.currents.length = logs.erpms.length ∧
    logs.currents.length = logs.voltages.length

instance (logs : Logs) : Decidable logs.balanced := by
  unfold Logs.balanced; infer_instance

/-- Why the measurement loop (lines 65–104) stopped. -/
inductive StopReason where
  /-- line 78: three consecutive failed queries. -/
  | retryExhausted
  /-- line 98: stopping condition of line 96 fired. -/
  | threshold
  /-- line 102–104: an exception inside the loop body (in this embedding:
  the `ZeroDivisionError` raised by `1000 / magnet_pole_pairs` when the
  configured pole-pair count is zero). -/
  | exception
  /-- artefact of the fuel-indexed embedding: fuel ran out while the real
  loop would still be running. -/
  | fuelOut
deriving DecidableEq, Repr

/-- The retry loop of lines 68–74: up to `retries` calls to
`get_measurements()`, breaking on the first snapshot, sleeping 0.1 s after
each failed call.  `k` is the index of the next `get_measurements` call.
Returns the final `state`, the next query index, and the number of
`time.sleep(0.1)` calls performed. -/
def retryQuery (env : Nat → Option Telemetry) : Nat → Nat → Option Telemetry × Nat × Nat
  | 0, k => (none, k, 0)
  | n + 1, k =>
    match env k with
    | some t => (some t, k + 1, 0)
    | none =>
      let r := retryQuery env n (k + 1)
      (r.1, r.2.1, r.2.2 + 1)

/-- The rpm conversion of line 86:
`rpm = erpm / magnet_pole_pairs if magnet_pole_pairs > 0 else 0`. -/
def rpmOf (pp : ℤ) (erpm : ℚ) : ℚ :=
  if 0 < pp then erpm / (pp : ℚ) else 0

/-- Result of one iteration of the measurement loop. -/
inductive StepOut where
  /-- the iteration executed `break` (or an exception broke the loop). -/
  | stopped (logs : Logs) (r : StopReason)
  /-- the iteration fell through to `time.sleep(0.1)` and the loop
  continues; `k` is the next query index. -/
  | next (logs : Logs) (k : Nat)
deriving DecidableEq, Repr

/-- One iteration of the measurement loop body (lines 66–104).  The
stopping check of line 96 evaluates left-to-right with Python's
short-circuit `or`: when `current > 60` the division `1000 /
magnet_pole_pairs` is never evaluated, so a zero pole-pair count only
raises (and is caught at line 102, breaking the loop) when the first
disjunct is false. -/
def measureStep (pp : ℤ) (env : Nat → Option Telemetry) (k : Nat) (logs : Logs) : StepOut :=
  match retryQuery env 3 k with
  | (none, _, _) => .stopped logs .retryExhausted
  | (some t, k', _) =>
    let current := t.avg_input_current
    let erpm := t.rpm
    let voltage := t.v_in
    let rpm := rpmOf pp erpm
    let logs' := logs.push current rpm voltage
    if 60 < current then .stopped logs' .threshold
    else if pp = 0 then .stopped logs' .exception
    else if rpm < 1000 / (pp : ℚ) then .stopped logs' .threshold
    else .next logs' k'

/-- The measurement loop (lines 65–104), iterating `measureStep` with
explicit fuel. -/
def measureLoop (pp : ℤ) (env : Nat → Option Telemetry) :
    Nat → Nat → Logs → Logs × StopReason
  | 0, _, logs => (logs, .fuelOut)
  | fuel + 1, k, logs =>
    match measureStep pp env k logs with
    | .stopped logs' r => (logs', r)
    | .next logs' k' => measureLoop pp env fuel k' logs'

/-- The logs carried by a step outcome. -/
def StepOut.logsOf : StepOut → Logs
  | .stopped l _ => l
  | .next l _ => l

/-- The acceleration loop of lines 45–54: while `commanded < target`,
attempt `set_duty_cycle(commanded)`; on success add `step` and continue, on
an exception `exit(1)` immediately.  `j` indexes `set_duty_cycle` calls.
Returns the attempted commands in order, the next actuator index, and
whether the loop died fatally. -/
def rampRun (actOk : Nat → Bool) (target step : ℚ) :
    Nat → Nat → ℚ → List ℚ × Nat × Bool
  | 0, j, _ => ([], j, false)
  | n + 1, j, c =>
    if c < target then
      if actOk j then
        let r := rampRun actOk target step n (j + 1) (c + step)
        (c :: r.1, r.2.1, r.2.2)
      else ([c], j + 1, true)
    else ([], j, false)

/-- Dot product of two lists (truncating at the shorter, as `zipWith`). -/
def dot (xs ys : List ℚ) : ℚ := (List.zipWith (· * ·) xs ys).sum

/-- Modelled from the library contract of `np.linalg.lstsq` (line 116) for
the two-column system `A = [a b]`, `A·(R,c) ≈ v`: the least-squares
solution obtained from the normal equations, `none` in the rank-deficient
case (`det (AᵀA) = 0`), which the claims never exercise. -/
def lstsq2 (a b v : List ℚ) : Option (ℚ × ℚ) :=
  let saa := dot a a
  let sab := dot a b
  let sbb := dot b b
  let sav := dot a v
  let sbv := dot b v
  let det := saa * sbb - sab * sab
  if det = 0 then none
  else some ((sbb * sav - sab * sbv) / det, (saa * sbv - sab * sav) / det)

/-- The parameter-fitting stage of lines 106–119: when at least 10 samples
were logged, solve `v ≈ R·i + c·(2π·rpm)` over the first 10 samples;
otherwise no model is produced (line 130). -/
def fitMotorModel (currents voltages rpms : List ℚ) : Option (ℚ × ℚ) :=
  if 10 ≤ currents.length then
    lstsq2 (currents.take 10)
      ((rpms.take 10).map (fun r => 2 * npPi * r))
      (voltages.take 10)
  else none

/-- One efficiency value (lines 124–128):
input power, estimated voltage from the fitted model, mechanical power
clamped below at 0, efficiency guarded against zero input power, final
clamp to `[0, 100]`. -/
def efficiencyValue (R c current rpm voltage : ℚ) : ℚ :=
  let inputPower := voltage * current
  let estimatedVoltage := R * current + c * 2 * npPi * rpm
  let mechanicalPower := max 0 (estimatedVoltage * current)
  let efficiency := if 0 < inputPower then mechanicalPower / inputPower * 100 else 0
  max 0 (min 100 efficiency)

/-- The efficiency loop of lines 122–128, walking the three logs in step
(the source indexes all three by `range(len(currents))`; the logs always
have equal length when this stage runs). -/
def computeEfficiencies (R c : ℚ) : List ℚ → List ℚ → List ℚ → List ℚ
  | current :: cs, rpm :: rs, voltage :: vs =>
    efficiencyValue R c current rpm voltage :: computeEfficiencies R c cs rs vs
  | _, _, _ => []

/-- Sum of squared residuals of `v ≈ R·a + c·b`. -/
def residualSq (R c : ℚ) : List ℚ → List ℚ → List ℚ → ℚ
  | a :: as, b :: bs, v :: vs => (v - R * a - c * b) ^ 2 + residualSq R c as bs vs
  | _, _, _ => 0

/-- `Σᵢ wᵢ·(vᵢ − R·aᵢ − c·bᵢ)`: a weighted sum of residuals. -/
def dotResid (R c : ℚ) : List ℚ → List ℚ → List ℚ → List ℚ → ℚ
  | w :: ws, a :: as, b :: bs, v :: vs =>
    w * (v - R * a - c * b) + dotResid R c ws as bs vs
  | _, _, _, _ => 0

/-- `Σᵢ (d·aᵢ + e·bᵢ)²`. -/
def quadSum (d e : ℚ) : List ℚ → List ℚ → ℚ
  | a :: as, b :: bs => (d * a + e * b) ^ 2 + quadSum d e as bs
  | _, _ => 0

/-- Phase in which the program called `exit(1)`. -/
inductive Phase where
  | connect
  | config
  | ramp
deriving DecidableEq, Repr

/-- Everything the environment decides: whether the VESC connection opens
(line 20), the parse result of the pole-pair prompt (line 28, `none` =
`ValueError`), the telemetry oracle, the actuator oracle, and the fuel
bound for the sampling loop. -/
structure ProgramInput where
  connectOk : Bool
  polePairs : Option ℤ
  telemetry : Nat → Option Telemetry
  actOk : Nat → Bool
  fuel : Nat

/-- Observable outcome of a run. -/
structure ProgramResult where
  /-- `some p` iff the program terminated via `exit(1)` in phase `p`. -/
  exitPhase : Option Phase := none
  /-- every argument passed to `set_duty_cycle`, in call order. -/
  dutyAttempts : List ℚ := []
  /-- why the sampling loop ended, when it was reached. -/
  stopReason : Option StopReason := none
  currents : List ℚ := []
  erpms : List ℚ := []
  voltages : List ℚ := []
  model : Option (ℚ × ℚ) := none
  efficiencies : List ℚ := []
  /-- the shutdown `set_duty_cycle(0)` of line 134 was attempted. -/
  stopCommandIssued : Bool := false
  /-- the plotting/export block of lines 140–155 was entered. -/
  exportAttempted : Bool := false
  /-- the program ran to its last line (no `exit(1)`, sampling ended). -/
  finished : Bool := false
deriving Repr

/-- Fuel for the acceleration loop; with exact rationals the loop performs
17 iterations, so any bound ≥ 17 is equivalent. -/
def rampFuel : Nat := 32

/-- The whole program, top to bottom: connect (line 20), pole-pair prompt
(lines 27–31), idle-current measurement (lines 34–41, consuming telemetry
query 0), acceleration loop (lines 45–54), measurement loop (lines
65–104), parameter fit (106–119), efficiency loop (122–128), shutdown
command (133–137), plot/export (140–155).  Every `exit(1)` returns
immediately with what happened so far; a fuel-exhausted sampling loop
means the real program is still inside `while True`, so nothing downstream
happens. -/
def runProgram (inp : ProgramInput) : ProgramResult :=
  if inp.connectOk = false then { exitPhase := some .connect }
  else
    match inp.polePairs with
    | none => { exitPhase := some .config }
    | some pp =>
      let ramp := rampRun inp.actOk (95 / 100) (5 / 100) rampFuel 0 (1 / 10)
      if ramp.2.2 then { exitPhase := some .ramp, dutyAttempts := ramp.1 }
      else
        let mres := measureLoop pp inp.telemetry inp.fuel 1 ⟨[], [], []⟩
        let logs := mres.1
        if mres.2 = .fuelOut then
          { dutyAttempts := ramp.1
            stopReason := some .fuelOut
            currents := logs.currents
            erpms := logs.erpms
            voltages := logs.voltages }
        else
          let model := fitMotorModel logs.currents logs.voltages logs.erpms
          let effs :=
            match model with
            | some (R, c) => computeEfficiencies R c logs.currents logs.erpms logs.voltages
            | none => []
          { dutyAttempts := ramp.1 ++ [0]
            stopReason := some mres.2
            currents := logs.currents
            erpms := logs.erpms
            voltages := logs.voltages
            model := model
            efficiencies := effs
            stopCommandIssued := true
            exportAttempted := true
            finished := true }

/-! ## Basic lemmas -/

lemma measureLoop_succ (pp : ℤ) (env : Nat → Option Telemetry)
    (fuel k : Nat) (logs : Logs) :
    measureLoop pp env (fuel + 1) k logs =
      match measureStep pp env k logs with
      | .stopped logs' r => (logs', r)
      | .next logs' k' => measureLoop pp env fuel k' logs' := rfl

lemma Logs.push_currents_getLast (logs : Logs) (a b c : ℚ) :
    ((logs.push a b c).currents).getLast? = some a := by
  simp [Logs.push]

lemma Logs.push_erpms_getLast (logs : Logs) (a b c : ℚ) :
    ((logs.push a b c).erpms).getLast? = some b := by
  simp [Logs.push]

lemma Logs.push_voltages_getLast (logs : Logs) (a b c : ℚ) :
    ((logs.push a b c).voltages).getLast? = some c := by
  simp [Logs.push]

/-! ## C1 : the stopping policy -/

/-- **C1.** For every successfully acquired sample (the retry block of this
iteration produced a snapshot `t`) and positive pole-pair count, the
measurement loop halts at this iteration if and only if the sample's
current exceeds 60 A or its mechanical rpm `t.rpm / pp` is below
`1000 / pp`; in the halting case the triggering sample has already been
appended and is the last entry of every log list (inclusive stop), and in
the non-halting case the loop continues with the sample appended. -/
theorem stoppingPolicy_halts_iff (pp : ℤ) (hpp : 0 < pp)
    (env : Nat → Option Telemetry) (fuel k : Nat) (logs : Logs) (t : Telemetry)
    (h : (retryQuery env 3 k).1 = some t) :
    ((60 < t.avg_input_current ∨ t.rpm / (pp : ℚ) < 1000 / (pp : ℚ)) →
      measureLoop pp env (fuel + 1) k logs =
        (logs.push t.avg_input_current (t.rpm / (pp : ℚ)) t.v_in, .threshold) ∧
      (measureLoop pp env (fuel + 1) k logs).1.currents.getLast? = some t.avg_input_current ∧
      (measureLoop pp env (fuel + 1) k logs).1.erpms.getLast? = some (t.rpm / (pp : ℚ)) ∧
      (measureLoop pp env (fuel + 1) k logs).1.voltages.getLast? = some t.v_in) ∧
    (¬(60 < t.avg_input_current ∨ t.rpm / (pp : ℚ) < 1000 / (pp : ℚ)) →
      measureLoop pp env (fuel + 1) k logs =
        measureLoop pp env fuel (retryQuery env 3 k).2.1
          (logs.push t.avg_input_current (t.rpm / (pp : ℚ)) t.v_in)) := by
  rcases hq : retryQuery env 3 k with ⟨r, k', s⟩
  rw [hq] at h
  subst h
  have hpp' : pp ≠ 0 := by omega
  have hstep : measureStep pp env k logs =
      if 60 < t.avg_input_current ∨ t.rpm / (pp : ℚ) < 1000 / (pp : ℚ) then
        .stopped (logs.push t.avg_input_current (t.rpm / (pp : ℚ)) t.v_in) .threshold
      else .next (logs.push t.avg_input_current (t.rpm / (pp : ℚ)) t.v_in) k' := by
    unfold measureStep
    rw [hq]
    simp only [rpmOf, if_pos hpp, if_neg hpp']
    by_cases h1 : 60 < t.avg_input_current
    · simp [h1]
    · by_cases h2 : t.rpm / (pp : ℚ) < 1000 / (pp : ℚ) <;> simp [h1, h2]
  constructor
  · intro hc
    have heq : measureLoop pp env (fuel + 1) k logs =
        (logs.push t.avg_input_current (t.rpm / (pp : ℚ)) t.v_in, .threshold) := by
      rw [measureLoop_succ, hstep, if_pos hc]
    refine ⟨heq, ?_, ?_, ?_⟩ <;>
      simp [heq, Logs.push_currents_getLast, Logs.push_erpms_getLast,
        Logs.push_voltages_getLast]
  · intro hc
    rw [measureLoop_succ, hstep, if_neg hc]

/-- Witness for `stoppingPolicy_halts_iff`: pole pairs 7, a snapshot with
70 A / 3500 erpm / 24 V halts immediately (70 > 60) and the triggering
sample is the last (here: only) log entry. -/
theorem stoppingPolicy_halts_iff_witness :
    measureLoop 7 (fun _ => some ⟨70, 3500, 24⟩) 6 0 ⟨[], [], []⟩ =
      (⟨[70], [500], [24]⟩, .threshold) := by
  have h := (stoppingPolicy_halts_iff 7 (by decide) (fun _ => some ⟨70, 3500, 24⟩)
    5 0 ⟨[], [], []⟩ ⟨70, 3500, 24⟩ (by simp [retryQuery])).1 (Or.inl (by norm_num))
  rw [h.1]
  norm_num [Logs.push]

/-! ## C2 : retry budget and graceful exhaustion -/

/-- **C2.** In every sampling iteration the retry block consumes at most
three telemetry queries and always at least one; when it fails it has made
exactly three consecutive failed attempts with a 0.1 s sleep after each
failed attempt (hence between any two attempts); when it succeeds the
number of sleeps equals the number of failed attempts preceding the
success; and a failed retry block terminates the *whole* measurement loop,
returning the accumulated logs unchanged with the non-fatal reason
`retryExhausted`. -/
theorem samplingLoop_retry_budget (env : Nat → Option Telemetry) (k : Nat) :
    (retryQuery env 3 k).2.1 ≤ k + 3 ∧
    k < (retryQuery env 3 k).2.1 ∧
    ((retryQuery env 3 k).1 = none →
      (retryQuery env 3 k).2.1 = k + 3 ∧ (retryQuery env 3 k).2.2 = 3 ∧
      env k = none ∧ env (k + 1) = none ∧ env (k + 2) = none) ∧
    (∀ t, (retryQuery env 3 k).1 = some t →
      (retryQuery env 3 k).2.1 = k + (retryQuery env 3 k).2.2 + 1) ∧
    (∀ (pp : ℤ) (fuel : Nat) (logs : Logs), (retryQuery env 3 k).1 = none →
      measureLoop pp env (fuel + 1) k logs = (logs, .retryExhausted)) := by
  have hloop : ∀ (pp : ℤ) (fuel : Nat) (logs : Logs), (retryQuery env 3 k).1 = none →
      measureLoop pp env (fuel + 1) k logs = (logs, .retryExhausted) := by
    intro pp fuel logs hnone
    rcases hq : retryQuery env 3 k with ⟨r, k', s⟩
    rw [hq] at hnone
    subst hnone
    unfold measureLoop measureStep
    rw [hq]
  rcases h0 : env k with _ | t0
  · rcases h1 : env (k + 1) with _ | t1
    · rcases h2 : env (k + 2) with _ | t2
      · refine ⟨?_, ?_, ?_, ?_, hloop⟩ <;>
          simp [retryQuery, h0, h1, h2, show k + 1 + 1 = k + 2 by omega] <;> omega
      · refine ⟨?_, ?_, ?_, ?_, hloop⟩ <;>
          simp [retryQuery, h0, h1, h2, show k + 1 + 1 = k + 2 by omega] <;> omega
    · refine ⟨?_, ?_, ?_, ?_, hloop⟩ <;> simp [retryQuery, h0, h1] <;> omega
  · refine ⟨?_, ?_, ?_, ?_, hloop⟩ <;> simp [retryQuery, h0] <;> omega

/-- Witness for `samplingLoop_retry_budget`: with a telemetry adapter that
never answers, the retry block makes exactly 3 attempts and 3 sleeps and
the loop ends at once with its accumulated (here: one-sample) log. -/
theorem samplingLoop_retry_budget_witness :
    measureLoop 7 (fun _ => none) 4 2 ⟨[5], [300], [24]⟩ =
      (⟨[5], [300], [24]⟩, .retryExhausted) ∧
    (retryQuery (fun _ => none) 3 2).2.1 = 2 + 3 ∧
    (retryQuery (fun _ => none) 3 2).2.2 = 3 := by
  have h := samplingLoop_retry_budget (fun _ => none) 2
  exact ⟨h.2.2.2.2 7 3 ⟨[5], [300], [24]⟩ (by decide),
    (h.2.2.1 (by decide)).1, (h.2.2.1 (by decide)).2.1⟩

/-! ## Step characterization helpers -/

lemma measureStep_of_none (pp : ℤ) (env : Nat → Option Telemetry) (k : Nat)
    (logs : Logs) (h : (retryQuery env 3 k).1 = none) :
    measureStep pp env k logs = .stopped logs .retryExhausted := by
  rcases hq : retryQuery env 3 k with ⟨r, k', s⟩
  rw [hq] at h
  subst h
  unfold measureStep
  rw [hq]

lemma measureStep_success_logs (pp : ℤ) (env : Nat → Option Telemetry) (k : Nat)
    (logs : Logs) (t : Telemetry) (h : (retryQuery env 3 k).1 = some t) :
    (measureStep pp env k logs).logsOf =
      logs.push t.avg_input_current (rpmOf pp t.rpm) t.v_in := by
  rcases hq : retryQuery env 3 k with ⟨r, k', s⟩
  rw [hq] at h
  subst h
  unfold measureStep
  rw [hq]
  dsimp only
  split_ifs <;> rfl

lemma measureStep_cases (pp : ℤ) (env : Nat → Option Telemetry) (k : Nat)
    (logs : Logs) :
    measureStep pp env k logs = .stopped logs .retryExhausted ∨
    ∃ t, (retryQuery env 3 k).1 = some t ∧
      ((∃ r, measureStep pp env k logs =
          .stopped (logs.push t.avg_input_current (rpmOf pp t.rpm) t.v_in) r) ∨
        measureStep pp env k logs =
          .next (logs.push t.avg_input_current (rpmOf pp t.rpm) t.v_in)
            (retryQuery env 3 k).2.1) := by
  rcases hq : retryQuery env 3 k with ⟨r, k', s⟩
  cases r with
  | none =>
    left
    unfold measureStep
    rw [hq]
  | some t =>
    right
    refine ⟨t, rfl, ?_⟩
    unfold measureStep
    rw [hq]
    dsimp only
    split_ifs with h1 h2 h3
    · exact Or.inl ⟨.threshold, rfl⟩
    · exact Or.inl ⟨.exception, rfl⟩
    · exact Or.inl ⟨.threshold, rfl⟩
    · exact Or.inr rfl

lemma Logs.push_balanced {logs : Logs} (h : logs.balanced) (a b c : ℚ) :
    (logs.push a b c).balanced := by
  rcases h with ⟨h1, h2⟩
  simp only [Logs.push, Logs.balanced, List.length_append, List.length_cons,
    List.length_nil]
  omega

lemma measureLoop_balanced (pp : ℤ) (env : Nat → Option Telemetry) :
    ∀ (fuel k : Nat) (logs : Logs), logs.balanced →
      (measureLoop pp env fuel k logs).1.balanced := by
  intro fuel
  induction fuel with
  | zero => intro k logs h; exact h
  | succ n ih =>
    intro k logs h
    rw [measureLoop_succ]
    rcases measureStep_cases pp env k logs with hs | ⟨t, _, ⟨r, hs⟩ | hs⟩
    · rw [hs]; exact h
    · rw [hs]; exact Logs.push_balanced h _ _ _
    · rw [hs]; exact ih _ _ (Logs.push_balanced h _ _ _)

/-! ## C8 : exact rpm conversion -/

/-- **C8.** For every positive pole-pair count the conversion of line 86 is
exactly `erpm / PolePairs`, and on every successful sample the value
appended to the rpm log is exactly `t.rpm / PolePairs` — no smoothing or
other transformation (the other two logs receive the raw current and
voltage unchanged). -/
theorem rpm_conversion_exact (pp : ℤ) (hpp : 0 < pp) (erpm : ℚ)
    (env : Nat → Option Telemetry) (k : Nat) (logs : Logs) (t : Telemetry)
    (h : (retryQuery env 3 k).1 = some t) :
    rpmOf pp erpm = erpm / (pp : ℚ) ∧
    (measureStep pp env k logs).logsOf.erpms = logs.erpms ++ [t.rpm / (pp : ℚ)] ∧
    (measureStep pp env k logs).logsOf.currents = logs.currents ++ [t.avg_input_current] ∧
    (measureStep pp env k logs).logsOf.voltages = logs.voltages ++ [t.v_in] := by
  have hr : rpmOf pp erpm = erpm / (pp : ℚ) := by simp [rpmOf, hpp]
  have hl := measureStep_success_logs pp env k logs t h
  refine ⟨hr, ?_, ?_, ?_⟩ <;> simp [hl, Logs.push, rpmOf, hpp]

/-- Witness for `rpm_conversion_exact`: pole pairs 7, erpm 3500 gives
mechanical rpm exactly 500. -/
theorem rpm_conversion_exact_witness :
    rpmOf 7 3500 = 500 ∧
    (measureStep 7 (fun _ => some ⟨70, 3500, 24⟩) 0 ⟨[], [], []⟩).logsOf.erpms = [500] := by
  have h := rpm_conversion_exact 7 (by decide) 3500 (fun _ => some ⟨70, 3500, 24⟩)
    0 ⟨[], [], []⟩ ⟨70, 3500, 24⟩ (by simp [retryQuery])
  constructor
  · rw [h.1]; norm_num
  · rw [h.2.1]; norm_num

/-! ## C10 : the three log lists stay in step -/

/-- **C10.** Each successful sample appends exactly one element to each of
the three log lists (push semantics); a failed retry block leaves them
unchanged; hence equal length of the three lists is an invariant of the
whole sampling loop; and no later phase modifies them: when the program
reaches sampling, the log lists in the final result are exactly the
sampling loop's output, and in every run the three lists of the result
have equal length. -/
theorem log_lists_in_step (pp : ℤ) (env : Nat → Option Telemetry) (k : Nat)
    (logs : Logs) (t : Telemetry) :
    ((retryQuery env 3 k).1 = some t →
      (measureStep pp env k logs).logsOf.currents.length = logs.currents.length + 1 ∧
      (measureStep pp env k logs).logsOf.erpms.length = logs.erpms.length + 1 ∧
      (measureStep pp env k logs).logsOf.voltages.length = logs.voltages.length + 1) ∧
    ((retryQuery env 3 k).1 = none → (measureStep pp env k logs).logsOf = logs) ∧
    (∀ fuel, logs.balanced → (measureLoop pp env fuel k logs).1.balanced) ∧
    (∀ (inp : ProgramInput) (p : ℤ), inp.connectOk = true → inp.polePairs = some p →
      (rampRun inp.actOk (95 / 100) (5 / 100) rampFuel 0 (1 / 10)).2.2 = false →
      (runProgram inp).currents =
        (measureLoop p inp.telemetry inp.fuel 1 ⟨[], [], []⟩).1.currents ∧
      (runProgram inp).erpms =
        (measureLoop p inp.telemetry inp.fuel 1 ⟨[], [], []⟩).1.erpms ∧
      (runProgram inp).voltages =
        (measureLoop p inp.telemetry inp.fuel 1 ⟨[], [], []⟩).1.voltages) ∧
    (∀ inp : ProgramInput,
      (runProgram inp).currents.length = (runProgram inp).erpms.length ∧
      (runProgram inp).currents.length = (runProgram inp).voltages.length) := by
  refine ⟨?_, ?_, fun fuel => measureLoop_balanced pp env fuel k logs, ?_, ?_⟩
  · intro h
    have hl := measureStep_success_logs pp env k logs t h
    refine ⟨?_, ?_, ?_⟩ <;> simp [hl, Logs.push]
  · intro h
    rw [measureStep_of_none pp env k logs h]
    rfl
  · intro inp p h1 h2 h3
    unfold runProgram
    rw [h1, h2]
    simp only [Bool.true_eq_false, if_false]
    rw [if_neg (by rw [h3]; exact Bool.false_ne_true)]
    by_cases hf : (measureLoop p inp.telemetry inp.fuel 1 ⟨[], [], []⟩).2 = .fuelOut
    · rw [if_pos hf]; exact ⟨rfl, rfl, rfl⟩
    · rw [if_neg hf]; exact ⟨rfl, rfl, rfl⟩
  · intro inp
    have hbal : ∀ (p : ℤ) (f k : Nat),
        (measureLoop p inp.telemetry f k ⟨[], [], []⟩).1.balanced :=
      fun p f k => measureLoop_balanced p inp.telemetry f k ⟨[], [], []⟩ (by simp [Logs.balanced])
    unfold runProgram
    by_cases h1 : inp.connectOk = false
    · simp [h1]
    · rw [if_neg h1]
      cases h2 : inp.polePairs with
      | none => exact ⟨rfl, rfl⟩
      | some p =>
        dsimp only
        by_cases h3 : (rampRun inp.actOk (95 / 100) (5 / 100) rampFuel 0 (1 / 10)).2.2
        · rw [if_pos h3]; exact ⟨rfl, rfl⟩
        · rw [if_neg h3]
          by_cases hf : (measureLoop p inp.telemetry inp.fuel 1 ⟨[], [], []⟩).2 = .fuelOut
          · rw [if_pos hf]; exact (hbal p inp.fuel 1).imp id id
          · rw [if_neg hf]; exact (hbal p inp.fuel 1).imp id id

/-- Witness for `log_lists_in_step`: one successful sample grows each list
from length 0 to length 1. -/
theorem log_lists_in_step_witness :
    (measureStep 7 (fun _ => some ⟨70, 3500, 24⟩) 0 ⟨[], [], []⟩).logsOf.currents.length = 1 ∧
    (measureStep 7 (fun _ => some ⟨70, 3500, 24⟩) 0 ⟨[], [], []⟩).logsOf.erpms.length = 1 ∧
    (measureStep 7 (fun _ => some ⟨70, 3500, 24⟩) 0 ⟨[], [], []⟩).logsOf.voltages.length = 1 := by
  have h := (log_lists_in_step 7 (fun _ => some ⟨70, 3500, 24⟩) 0 ⟨[], [], []⟩
    ⟨70, 3500, 24⟩).1 (by simp [retryQuery])
  exact ⟨h.1, h.2.1, h.2.2⟩

/-! ## C9 : ramp termination and monotonicity -/

/-- Closed form of the acceleration loop when every actuator command
succeeds: starting at `c` it issues the commands `c, c+step, …` for as many
indices as the guard allows. -/
lemma rampRun_ok_spec (target step : ℚ) :
    ∀ (kcount : Nat) (c : ℚ) (n j : Nat),
      target ≤ c + kcount * step →
      (∀ i : Nat, i < kcount → c + i * step < target) →
      kcount ≤ n →
      rampRun (fun _ => true) target step n j c =
        ((List.range kcount).map (fun i : Nat => c + (i : ℚ) * step), j + kcount, false) := by
  intro kcount
  induction kcount with
  | zero =>
    intro c n j hk _ _
    have hcd : ¬ c < target := by
      push_neg
      simpa using hk
    cases n with
    | zero => simp [rampRun]
    | succ m => simp [rampRun, hcd]
  | succ k ih =>
    intro c n j hk hlt hn
    obtain ⟨m, rfl⟩ : ∃ m, n = m + 1 := ⟨n - 1, by omega⟩
    have hc : c < target := by simpa using hlt 0 (by omega)
    have hr := ih (c + step) m (j + 1)
      (by push_cast at hk ⊢; linarith)
      (by
        intro i hi
        have := hlt (i + 1) (by omega)
        push_cast at this ⊢
        linarith)
      (by omega)
    have hstep : rampRun (fun _ => true) target step (m + 1) j c =
        (c :: (rampRun (fun _ => true) target step m (j + 1) (c + step)).1,
          (rampRun (fun _ => true) target step m (j + 1) (c + step)).2.1,
          (rampRun (fun _ => true) target step m (j + 1) (c + step)).2.2) := by
      simp [rampRun, hc]
    rw [hstep, hr]
    simp only [Prod.mk.injEq]
    refine ⟨?_, by omega, trivial⟩
    rw [List.range_succ_eq_map, List.map_cons, List.map_map]
    refine List.cons_eq_cons.mpr ⟨by norm_num, ?_⟩
    refine List.map_congr_left ?_
    intro i _
    simp only [Function.comp_apply]
    push_cast
    ring

/-- **C9.** With the source's constants (start 0.1, target 0.95, step
0.05) and a non-failing actuator, the acceleration loop terminates after
exactly 17 = ⌈(0.95 − 0.1)/0.05⌉ issued commands, the commanded duty
cycles are strictly increasing, and the loop ends without a fatal error. -/
theorem ramp_loop_terminates (fuel j : Nat) (h : 17 ≤ fuel) :
    (rampRun (fun _ => true) (95 / 100) (5 / 100) fuel j (1 / 10)).1.length = 17 ∧
    ⌈(((95 : ℚ) / 100) - 1 / 10) / (5 / 100)⌉ = (17 : ℤ) ∧
    List.Pairwise (· < ·) (rampRun (fun _ => true) (95 / 100) (5 / 100) fuel j (1 / 10)).1 ∧
    (rampRun (fun _ => true) (95 / 100) (5 / 100) fuel j (1 / 10)).2.2 = false := by
  have hlt : ∀ i : Nat, i < 17 → (1 : ℚ) / 10 + i * (5 / 100) < 95 / 100 := by
    intro i hi
    have hi' : (i : ℚ) ≤ 16 := by exact_mod_cast Nat.lt_succ_iff.mp hi
    have := mul_le_mul_of_nonneg_right hi' (by norm_num : (0 : ℚ) ≤ 5 / 100)
    linarith
  have hspec := rampRun_ok_spec (95 / 100) (5 / 100) 17 (1 / 10) fuel j
    (by push_cast; norm_num) hlt h
  have hceil : ⌈(((95 : ℚ) / 100) - 1 / 10) / (5 / 100)⌉ = (17 : ℤ) := by
    have : (((95 : ℚ) / 100) - 1 / 10) / (5 / 100) = 17 := by norm_num
    rw [this]
    exact_mod_cast Int.ceil_intCast (17 : ℤ)
  refine ⟨by rw [hspec]; simp, hceil, ?_, by rw [hspec]⟩
  rw [hspec]
  simp only [List.pairwise_map]
  refine (List.pairwise_lt_range 17).imp ?_
  intro a b hab
  have hab' : (a : ℚ) < b := by exact_mod_cast hab
  have := mul_lt_mul_of_pos_right hab' (by norm_num : (0 : ℚ) < 5 / 100)
  linarith

/-- Witness for `ramp_loop_terminates` at fuel 17, actuator index 0. -/
theorem ramp_loop_terminates_witness :
    (rampRun (fun _ => true) (95 / 100) (5 / 100) 17 0 (1 / 10)).1.length = 17 ∧
    List.Pairwise (· < ·) (rampRun (fun _ => true) (95 / 100) (5 / 100) 17 0 (1 / 10)).1 := by
  have h := ramp_loop_terminates 17 0 (by decide)
  exact ⟨h.1, h.2.2.1⟩

/-! ## C5 : efficiency derivation -/

lemma efficiencyValue_eq_spec (R c current rpm voltage : ℚ) :
    efficiencyValue R c current rpm voltage =
      max 0 (min 100
        (if 0 < voltage * current then
          100 * max 0 ((R * current + c * (2 * npPi * rpm)) * current) /
            (voltage * current)
        else 0)) := by
  have hg : R * current + c * 2 * npPi * rpm
      = R * current + c * (2 * npPi * rpm) := by ring
  simp only [efficiencyValue, hg]
  by_cases h : 0 < voltage * current
  · rw [if_pos h, if_pos h]
    ring_nf
  · rw [if_neg h, if_neg h]

lemma efficiencyValue_bounds (R c current rpm voltage : ℚ) :
    0 ≤ efficiencyValue R c current rpm voltage ∧
      efficiencyValue R c current rpm voltage ≤ 100 := by
  unfold efficiencyValue
  exact ⟨le_max_left _ _, max_le (by norm_num) (min_le_left _ _)⟩

lemma computeEfficiencies_length (R c : ℚ) :
    ∀ (cs rs vs : List ℚ), cs.length = rs.length → cs.length = vs.length →
      (computeEfficiencies R c cs rs vs).length = cs.length := by
  intro cs
  induction cs with
  | nil => intro rs vs _ _; cases rs <;> cases vs <;> rfl
  | cons a cs ih =>
    intro rs vs h1 h2
    cases rs with
    | nil => simp at h1
    | cons b rs =>
      cases vs with
      | nil => simp at h2
      | cons v vs =>
        simp only [computeEfficiencies, List.length_cons]
        rw [ih rs vs (by simpa using h1) (by simpa using h2)]

lemma computeEfficiencies_mem (R c : ℚ) :
    ∀ (cs rs vs : List ℚ), ∀ e ∈ computeEfficiencies R c cs rs vs,
      0 ≤ e ∧ e ≤ 100 := by
  intro cs
  induction cs with
  | nil => intro rs vs e he; cases rs <;> cases vs <;> simp [computeEfficiencies] at he
  | cons a cs ih =>
    intro rs vs e he
    cases rs with
    | nil => simp [computeEfficiencies] at he
    | cons b rs =>
      cases vs with
      | nil => simp [computeEfficiencies] at he
      | cons v vs =>
        simp only [computeEfficiencies, List.mem_cons] at he
        rcases he with rfl | he
        · exact efficiencyValue_bounds R c a b v
        · exact ih rs vs e he

lemma computeEfficiencies_getD (R c : ℚ) :
    ∀ (cs rs vs : List ℚ) (i : Nat), cs.length = rs.length → cs.length = vs.length →
      i < cs.length →
      (computeEfficiencies R c cs rs vs).getD i 0 =
        efficiencyValue R c (cs.getD i 0) (rs.getD i 0) (vs.getD i 0) := by
  intro cs
  induction cs with
  | nil => intro rs vs i _ _ hi; simp at hi
  | cons a cs ih =>
    intro rs vs i h1 h2 hi
    cases rs with
    | nil => simp at h1
    | cons b rs =>
      cases vs with
      | nil => simp at h2
      | cons v vs =>
        cases i with
        | zero => rfl
        | succ n =>
          simp only [computeEfficiencies, List.getD_cons_succ]
          exact ih rs vs n (by simpa using h1) (by simpa using h2)
            (by simpa using hi)

/-- **C5.** When a motor model `(R, c)` exists, the efficiency stage
produces exactly one value per sample of the full log, in log order; the
`i`-th output equals the spec's formula — input power `vᵢ·iᵢ`, estimated
voltage `R·iᵢ + c·2π·rpmᵢ`, mechanical power clamped below at 0,
efficiency `100·mech/input` when input power is positive and `0`
otherwise, clamped to `[0, 100]` — every output lies in `[0, 100]`, and a
sample with zero input power yields efficiency `0` with no division
fault. -/
theorem efficiency_per_sample (R c : ℚ) (cs rs vs : List ℚ)
    (h1 : cs.length = rs.length) (h2 : cs.length = vs.length) :
    (computeEfficiencies R c cs rs vs).length = cs.length ∧
    (∀ i : Nat, i < cs.length →
      (computeEfficiencies R c cs rs vs).getD i 0 =
        max 0 (min 100
          (if 0 < vs.getD i 0 * cs.getD i 0 then
            100 * max 0 ((R * cs.getD i 0 + c * (2 * npPi * rs.getD i 0)) * cs.getD i 0) /
              (vs.getD i 0 * cs.getD i 0)
          else 0))) ∧
    (∀ e ∈ computeEfficiencies R c cs rs vs, 0 ≤ e ∧ e ≤ 100) ∧
    (∀ current rpm voltage : ℚ, voltage * current = 0 →
      efficiencyValue R c current rpm voltage = 0) := by
  refine ⟨computeEfficiencies_length R c cs rs vs h1 h2, ?_,
    computeEfficiencies_mem R c cs rs vs, ?_⟩
  · intro i hi
    rw [computeEfficiencies_getD R c cs rs vs i h1 h2 hi,
      efficiencyValue_eq_spec]
  · intro current rpm voltage h
    simp only [efficiencyValue, h]
    norm_num

/-- Witness for `efficiency_per_sample`: a one-sample log; with model
`(R, c) = (1, 0)`, sample (current 2 A, rpm 10, voltage 12 V) the single
output is in range, and zero input power yields 0. -/
theorem efficiency_per_sample_witness :
    (computeEfficiencies 1 0 [2] [10] [12]).length = 1 ∧
    (∀ e ∈ computeEfficiencies 1 0 [2] [10] [12], 0 ≤ e ∧ e ≤ 100) ∧
    efficiencyValue 1 0 5 300 0 = 0 := by
  have h := efficiency_per_sample 1 0 [2] [10] [12] (by simp) (by simp)
  exact ⟨h.1, h.2.2.1, h.2.2.2 5 300 0 (by norm_num)⟩

/-! ## C6 : least-squares parameter fit

`residualSq R c a b v = Σᵢ (vᵢ − R·aᵢ − c·bᵢ)²` is the squared residual of
the linear system solved at line 116; `lstsq2` is shown to minimize it. -/

lemma dot_cons (x y : ℚ) (xs ys : List ℚ) :
    dot (x :: xs) (y :: ys) = x * y + dot xs ys := by
  simp [dot]

lemma quadSum_nonneg (d e : ℚ) : ∀ (a b : List ℚ), 0 ≤ quadSum d e a b := by
  intro a
  induction a with
  | nil => intro b; cases b <;> simp [quadSum]
  | cons x xs ih =>
    intro b
    cases b with
    | nil => simp [quadSum]
    | cons y ys => exact add_nonneg (sq_nonneg _) (ih ys)

lemma residualSq_expand (R c R' c' : ℚ) :
    ∀ (a b v : List ℚ), a.length = b.length → b.length = v.length →
      residualSq R' c' a b v =
        residualSq R c a b v
          - 2 * (R' - R) * dotResid R c a a b v
          - 2 * (c' - c) * dotResid R c b a b v
          + quadSum (R' - R) (c' - c) a b := by
  intro a
  induction a with
  | nil =>
    intro b v hab hbv
    cases b with
    | nil =>
      cases v with
      | nil => simp [residualSq, dotResid, quadSum]
      | cons _ _ => simp at hbv
    | cons _ _ => simp at hab
  | cons x xs ih =>
    intro b v hab hbv
    cases b with
    | nil => simp at hab
    | cons y ys =>
      cases v with
      | nil => simp at hbv
      | cons w ws =>
        have hrec := ih ys ws (by simpa using hab) (by simpa using hbv)
        simp only [residualSq, dotResid, quadSum]
        rw [hrec]
        ring

lemma dotResid_a_eq (R c : ℚ) :
    ∀ (a b v : List ℚ), a.length = b.length → b.length = v.length →
      dotResid R c a a b v = dot a v - R * dot a a - c * dot a b := by
  intro a
  induction a with
  | nil =>
    intro b v hab hbv
    cases b <;> cases v <;> simp_all [dotResid, dot]
  | cons x xs ih =>
    intro b v hab hbv
    cases b with
    | nil => simp at hab
    | cons y ys =>
      cases v with
      | nil => simp at hbv
      | cons w ws =>
        simp only [dotResid, dot_cons]
        rw [ih ys ws (by simpa using hab) (by simpa using hbv)]
        ring

lemma dotResid_b_eq (R c : ℚ) :
    ∀ (a b v : List ℚ), a.length = b.length → b.length = v.length →
      dotResid R c b a b v = dot b v - R * dot a b - c * dot b b := by
  intro a
  induction a with
  | nil =>
    intro b v hab hbv
    cases b <;> cases v <;> simp_all [dotResid, dot]
  | cons x xs ih =>
    intro b v hab hbv
    cases b with
    | nil => simp at hab
    | cons y ys =>
      cases v with
      | nil => simp at hbv
      | cons w ws =>
        simp only [dotResid, dot_cons]
        rw [ih ys ws (by simpa using hab) (by simpa using hbv)]
        ring

lemma lstsq2_normal_equations (a b v : List ℚ) (R C : ℚ)
    (h : lstsq2 a b v = some (R, C)) :
    dot a v - R * dot a a - C * dot a b = 0 ∧
      dot b v - R * dot a b - C * dot b b = 0 := by
  simp only [lstsq2] at h
  by_cases hdet : dot a a * dot b b - dot a b * dot a b = 0
  · rw [if_pos hdet] at h
    cases h
  · rw [if_neg hdet] at h
    injection h with h'
    injection h' with hR hC
    subst hR
    subst hC
    constructor
    · field_simp [hdet]
      ring
    · field_simp [hdet]
      ring

/-- The normal-equation solution minimizes the squared residual. -/
lemma lstsq2_minimizes (a b v : List ℚ) (R C : ℚ)
    (hab : a.length = b.length) (hbv : b.length = v.length)
    (h : lstsq2 a b v = some (R, C)) :
    ∀ R' C', residualSq R C a b v ≤ residualSq R' C' a b v := by
  intro R' C'
  obtain ⟨hna, hnb⟩ := lstsq2_normal_equations a b v R C h
  have hexp := residualSq_expand R C R' C' a b v hab hbv
  rw [dotResid_a_eq R C a b v hab hbv, dotResid_b_eq R C a b v hab hbv,
    hna, hnb] at hexp
  have hq := quadSum_nonneg (R' - R) (C' - C) a b
  linarith [hexp]

/-- **C6.** The parameter fit uses exactly the first 10 samples and no
others: two logs agreeing on their first 10 samples (both long enough)
yield identical models; the produced pair `(R, c)` minimizes the squared
residual of `v ≈ R·i + c·(2π·rpm)` over those 10 samples; and each run
produces exactly one `(R, c)` pair, fully determined by the final log —
never re-fit as more samples arrive. -/
theorem parameter_fit_first_ten (cs vs rs cs' vs' rs' : List ℚ) :
    (10 ≤ cs.length → 10 ≤ cs'.length →
      cs.take 10 = cs'.take 10 → vs.take 10 = vs'.take 10 → rs.take 10 = rs'.take 10 →
      fitMotorModel cs vs rs = fitMotorModel cs' vs' rs') ∧
    (∀ R C : ℚ, cs.length = rs.length → cs.length = vs.length →
      fitMotorModel cs vs rs = some (R, C) →
      ∀ R' C' : ℚ,
        residualSq R C (cs.take 10) ((rs.take 10).map (fun r => 2 * npPi * r))
            (vs.take 10) ≤
          residualSq R' C' (cs.take 10) ((rs.take 10).map (fun r => 2 * npPi * r))
            (vs.take 10)) ∧
    (∀ inp : ProgramInput, (runProgram inp).finished = true →
      (runProgram inp).model =
        fitMotorModel (runProgram inp).currents (runProgram inp).voltages
          (runProgram inp).erpms) := by
  refine ⟨?_, ?_, ?_⟩
  · intro h10 h10' hc hv hr
    unfold fitMotorModel
    rw [if_pos h10, if_pos h10', hc, hv, hr]
  · intro R C hcr hcv hfit R' C'
    have h10 : 10 ≤ cs.length := by
      by_contra hlt
      rw [fitMotorModel, if_neg hlt] at hfit
      cases hfit
    rw [fitMotorModel, if_pos h10] at hfit
    have hab : (cs.take 10).length =
        ((rs.take 10).map (fun r => 2 * npPi * r)).length := by
      simp [List.length_take]
      omega
    have hbv : ((rs.take 10).map (fun r => 2 * npPi * r)).length =
        (vs.take 10).length := by
      simp [List.length_take]
      omega
    exact lstsq2_minimizes _ _ _ R C hab hbv hfit R' C'
  · intro inp hfin
    unfold runProgram at hfin ⊢
    by_cases h1 : inp.connectOk = false
    · simp [h1] at hfin
    · rw [if_neg h1] at hfin ⊢
      revert hfin
      cases h2 : inp.polePairs with
      | none => intro hfin; cases hfin
      | some p =>
        intro hfin
        dsimp only at hfin ⊢
        by_cases h3 : (rampRun inp.actOk (95 / 100) (5 / 100) rampFuel 0 (1 / 10)).2.2
        · rw [if_pos h3] at hfin; cases hfin
        · rw [if_neg h3] at hfin ⊢
          by_cases hf : (measureLoop p inp.telemetry inp.fuel 1 ⟨[], [], []⟩).2 = .fuelOut
          · rw [if_pos hf] at hfin; cases hfin
          · rw [if_neg hf]

/-- Witness for `parameter_fit_first_ten`: a 10-sample log generated
exactly by `(R, c) = (2, 0)` (voltage = 2·current, constant rpm); an
11th junk sample does not change the fit, and the fitted `(2, 0)` has
squared residual no worse than `(R', c') = (1, 1)`. -/
theorem parameter_fit_first_ten_witness :
    fitMotorModel [1, 2, 3, 4, 5, 6, 7, 8, 9, 10]
        [2, 4, 6, 8, 10, 12, 14, 16, 18, 20] [1, 1, 1, 1, 1, 1, 1, 1, 1, 1] =
      fitMotorModel [1, 2, 3, 4, 5, 6, 7, 8, 9, 10, 99]
        [2, 4, 6, 8, 10, 12, 14, 16, 18, 20, 99] [1, 1, 1, 1, 1, 1, 1, 1, 1, 1, 99] ∧
    residualSq 2 0 ([(1 : ℚ), 2, 3, 4, 5, 6, 7, 8, 9, 10].take 10)
        (([(1 : ℚ), 1, 1, 1, 1, 1, 1, 1, 1, 1].take 10).map (fun r => 2 * npPi * r))
        ([(2 : ℚ), 4, 6, 8, 10, 12, 14, 16, 18, 20].take 10) ≤
      residualSq 1 1 ([(1 : ℚ), 2, 3, 4, 5, 6, 7, 8, 9, 10].take 10)
        (([(1 : ℚ), 1, 1, 1, 1, 1, 1, 1, 1, 1].take 10).map (fun r => 2 * npPi * r))
        ([(2 : ℚ), 4, 6, 8, 10, 12, 14, 16, 18, 20].take 10) := by
  have h := parameter_fit_first_ten
    [1, 2, 3, 4, 5, 6, 7, 8, 9, 10] [2, 4, 6, 8, 10, 12, 14, 16, 18, 20]
    [1, 1, 1, 1, 1, 1, 1, 1, 1, 1]
    [1, 2, 3, 4, 5, 6, 7, 8, 9, 10, 99] [2, 4, 6, 8, 10, 12, 14, 16, 18, 20, 99]
    [1, 1, 1, 1, 1, 1, 1, 1, 1, 1, 99]
  refine ⟨h.1 (by simp) (by simp) rfl rfl rfl, ?_⟩
  refine h.2.1 2 0 rfl rfl ?_ 1 1
  have hpi : npPi ≠ 0 := by norm_num [npPi]
  norm_num [fitMotorModel, lstsq2, dot, npPi]

/-! ## C7 : insufficient data is non-fatal -/

/-- **C7.** Every run that completes its sampling loop with fewer than 10
logged samples finishes without a model and without any efficiency values,
does not exit fatally, and still reaches the export stage with its partial
log. -/
theorem insufficient_data_non_fatal (inp : ProgramInput)
    (hfin : (runProgram inp).finished = true)
    (hlen : (runProgram inp).currents.length < 10) :
    (runProgram inp).model = none ∧
    (runProgram inp).efficiencies = [] ∧
    (runProgram inp).exportAttempted = true ∧
    (runProgram inp).exitPhase = none := by
  unfold runProgram at hfin hlen ⊢
  by_cases h1 : inp.connectOk = false
  · simp [h1] at hfin
  · rw [if_neg h1] at hfin hlen ⊢
    revert hfin hlen
    cases h2 : inp.polePairs with
    | none => intro hfin _; cases hfin
    | some p =>
      intro hfin hlen
      dsimp only at hfin hlen ⊢
      by_cases h3 : (rampRun inp.actOk (95 / 100) (5 / 100) rampFuel 0 (1 / 10)).2.2
      · rw [if_pos h3] at hfin; cases hfin
      · rw [if_neg h3] at hfin hlen ⊢
        by_cases hf : (measureLoop p inp.telemetry inp.fuel 1 ⟨[], [], []⟩).2 = .fuelOut
        · rw [if_pos hf] at hfin; cases hfin
        · rw [if_neg hf] at hlen ⊢
          have hlen' : (measureLoop p inp.telemetry inp.fuel 1
              ⟨[], [], []⟩).1.currents.length < 10 := hlen
          have hfit : fitMotorModel
              (measureLoop p inp.telemetry inp.fuel 1 ⟨[], [], []⟩).1.currents
              (measureLoop p inp.telemetry inp.fuel 1 ⟨[], [], []⟩).1.voltages
              (measureLoop p inp.telemetry inp.fuel 1 ⟨[], [], []⟩).1.erpms = none := by
            rw [fitMotorModel, if_neg (by omega)]
          refine ⟨hfit, ?_, rfl, rfl⟩
          show (match fitMotorModel _ _ _ with
            | some (R, c) => computeEfficiencies R c _ _ _
            | none => []) = []
          rw [hfit]

lemma threshold_ne_fuelOut : StopReason.threshold ≠ StopReason.fuelOut := by decide

lemma retryExhausted_ne_fuelOut : StopReason.retryExhausted ≠ StopReason.fuelOut := by decide

lemma exception_ne_fuelOut : StopReason.exception ≠ StopReason.fuelOut := by decide

/-- Witness for `insufficient_data_non_fatal`: a run whose very first
sample (70 A > 60 A) halts sampling, leaving a 1-entry log: it finishes,
computes no efficiencies and still reaches export. -/
theorem insufficient_data_non_fatal_witness :
    (runProgram ⟨true, some 7, fun _ => some ⟨70, 3500, 24⟩, fun _ => true, 5⟩).model = none ∧
    (runProgram ⟨true, some 7, fun _ => some ⟨70, 3500, 24⟩, fun _ => true, 5⟩).efficiencies = [] ∧
    (runProgram ⟨true, some 7, fun _ => some ⟨70, 3500, 24⟩, fun _ => true, 5⟩).exportAttempted = true ∧
    (runProgram ⟨true, some 7, fun _ => some ⟨70, 3500, 24⟩, fun _ => true, 5⟩).exitPhase = none := by
  refine insufficient_data_non_fatal _ ?_ ?_ <;>
    norm_num [runProgram, rampFuel, rampRun, measureLoop, measureStep, retryQuery,
      rpmOf, Logs.push, fitMotorModel, threshold_ne_fuelOut]

/-! ## C3 : non-positive pole pairs are NOT rejected -/

lemma rampRun_pos_nonempty (actOk : Nat → Bool) (target step : ℚ) (n j : Nat)
    (c : ℚ) (hc : c < target) :
    (rampRun actOk target step (n + 1) j c).1 ≠ [] := by
  simp only [rampRun, if_pos hc]
  by_cases h : actOk j <;> simp [h]

lemma rampRun_start_nonempty (actOk : Nat → Bool) (j : Nat) :
    (rampRun actOk (95 / 100) (5 / 100) rampFuel j (1 / 10)).1 ≠ [] := by
  rw [show rampFuel = 31 + 1 from rfl]
  exact rampRun_pos_nonempty actOk (95 / 100) (5 / 100) 31 j (1 / 10) (by norm_num)

/-- Counterexample to **C3** as stated: a configured pole-pair count of
`0` (non-positive) is accepted by the validation of lines 27–31 — which
only catches `ValueError` — so the program does not abort: it commands the
whole duty-cycle ramp, samples (here one sample of 70 A, which trips the
stopping check before the zero division is reached) and finishes
normally. -/
theorem nonpositive_pole_pairs_accepted :
    (runProgram ⟨true, some 0, fun _ => some ⟨70, 3500, 24⟩, fun _ => true, 5⟩).exitPhase = none ∧
    (runProgram ⟨true, some 0, fun _ => some ⟨70, 3500, 24⟩, fun _ => true, 5⟩).dutyAttempts ≠ [] ∧
    (runProgram ⟨true, some 0, fun _ => some ⟨70, 3500, 24⟩, fun _ => true, 5⟩).currents = [70] ∧
    (runProgram ⟨true, some 0, fun _ => some ⟨70, 3500, 24⟩, fun _ => true, 5⟩).finished = true := by
  norm_num [runProgram, rampFuel, rampRun, measureLoop, measureStep, retryQuery,
    rpmOf, Logs.push, fitMotorModel, threshold_ne_fuelOut]
  exact List.cons_ne_nil _ _

/-- **C3 (amended).** The configuration phase aborts the program if and
only if the pole-pair input is malformed (fails integer parsing); a
non-positive integer value is accepted: duty cycles are commanded and the
run proceeds, with line 86 forcing the logged rpm to 0 whenever
`PolePairs ≤ 0`. -/
theorem config_validation_malformed_only (inp : ProgramInput)
    (hc : inp.connectOk = true) :
    ((runProgram inp).exitPhase = some .config ↔ inp.polePairs = none) ∧
    (inp.polePairs = none →
      (runProgram inp).dutyAttempts = [] ∧ (runProgram inp).currents = []) ∧
    (∀ p : ℤ, inp.polePairs = some p → (runProgram inp).dutyAttempts ≠ []) ∧
    (∀ (p : ℤ) (erpm : ℚ), p ≤ 0 → rpmOf p erpm = 0) := by
  have h1 : ¬ inp.connectOk = false := by rw [hc]; simp
  refine ⟨?_, ?_, ?_, ?_⟩
  · unfold runProgram
    rw [if_neg h1]
    cases h2 : inp.polePairs with
    | none => simp
    | some p =>
      dsimp only
      simp only [Option.some_ne_none, iff_false]
      by_cases h3 : (rampRun inp.actOk (95 / 100) (5 / 100) rampFuel 0 (1 / 10)).2.2
      · rw [if_pos h3]
        simp
      · rw [if_neg h3]
        by_cases hf : (measureLoop p inp.telemetry inp.fuel 1 ⟨[], [], []⟩).2 = .fuelOut
        · rw [if_pos hf]; simp
        · rw [if_neg hf]; simp
  · intro h2
    unfold runProgram
    rw [if_neg h1]
    rw [h2]
    exact ⟨rfl, rfl⟩
  · intro p h2
    unfold runProgram
    rw [if_neg h1, h2]
    dsimp only
    by_cases h3 : (rampRun inp.actOk (95 / 100) (5 / 100) rampFuel 0 (1 / 10)).2.2
    · rw [if_pos h3]
      exact rampRun_start_nonempty inp.actOk 0
    · rw [if_neg h3]
      by_cases hf : (measureLoop p inp.telemetry inp.fuel 1 ⟨[], [], []⟩).2 = .fuelOut
      · rw [if_pos hf]
        exact rampRun_start_nonempty inp.actOk 0
      · rw [if_neg hf]
        simp
  · intro p erpm hp
    have hnp : ¬ (0 : ℤ) < p := by omega
    simp [rpmOf, hnp]

/-- Witness for `config_validation_malformed_only`: with an open
connection, a malformed pole-pair input aborts in the configuration phase
with nothing commanded, while the integer 0 does not abort there. -/
theorem config_validation_malformed_only_witness :
    ((runProgram ⟨true, none, fun _ => none, fun _ => true, 5⟩).exitPhase = some .config) ∧
    (runProgram ⟨true, none, fun _ => none, fun _ => true, 5⟩).dutyAttempts = [] ∧
    ¬ (runProgram ⟨true, some 0, fun _ => none, fun _ => true, 5⟩).exitPhase = some .config := by
  have ha := config_validation_malformed_only ⟨true, none, fun _ => none, fun _ => true, 5⟩ rfl
  have hb := config_validation_malformed_only ⟨true, some 0, fun _ => none, fun _ => true, 5⟩ rfl
  exact ⟨ha.1.mpr rfl, (ha.2.1 rfl).1, fun h => by cases hb.1.mp h⟩

/-! ## C4 : fatal errors exit without the shutdown zero-duty command -/

lemma rampRun_mem_pos (actOk : Nat → Bool) (target step : ℚ) (hs : 0 ≤ step) :
    ∀ (n j : Nat) (c : ℚ), 0 < c →
      ∀ x ∈ (rampRun actOk target step n j c).1, 0 < x := by
  intro n
  induction n with
  | zero => intro j c _ x hx; simp [rampRun] at hx
  | succ m ih =>
    intro j c hc x hx
    by_cases hg : c < target
    · by_cases ha : actOk j
      · simp only [rampRun, if_pos hg, ha, if_true] at hx
        rcases List.mem_cons.mp hx with rfl | hx
        · exact hc
        · exact ih (j + 1) (c + step) (by linarith) x hx
      · simp only [rampRun, if_pos hg, ha, if_false] at hx
        rcases List.mem_singleton.mp hx with rfl
        exact hc
    · simp [rampRun, hg] at hx

/-- Counterexample to **C4** as stated: when the very first
`set_duty_cycle` raises, the program exits fatally from the ramp phase at
line 54 without ever attempting the zero-duty shutdown command of line
134 — `exit(1)` short-circuits past the shutdown block, so no zero duty
cycle is commanded. -/
theorem fatal_ramp_error_skips_zero_duty :
    (runProgram ⟨true, some 7, fun _ => some ⟨5, 3500, 24⟩, fun _ => false, 5⟩).exitPhase = some .ramp ∧
    (runProgram ⟨true, some 7, fun _ => some ⟨5, 3500, 24⟩, fun _ => false, 5⟩).stopCommandIssued = false ∧
    (runProgram ⟨true, some 7, fun _ => some ⟨5, 3500, 24⟩, fun _ => false, 5⟩).dutyAttempts = [1 / 10] := by
  norm_num [runProgram, rampFuel, rampRun]

/-- **C4 (amended).** No fatal error reaches the shutdown zero-duty
command: every `exit(1)` path (failed connection, malformed configuration,
actuator failure while ramping) terminates with the shutdown command
unattempted and no zero duty cycle ever commanded; the zero-duty command
of line 134 is attempted exactly on runs that complete the sampling
phase. -/
theorem fatal_error_exits_without_zero_duty (inp : ProgramInput) :
    (runProgram inp).stopCommandIssued = (runProgram inp).finished ∧
    ((runProgram inp).exitPhase ≠ none →
      (runProgram inp).stopCommandIssued = false ∧
      (0 : ℚ) ∉ (runProgram inp).dutyAttempts) := by
  unfold runProgram
  by_cases h1 : inp.connectOk = false
  · rw [if_pos h1]
    exact ⟨rfl, fun _ => ⟨rfl, List.not_mem_nil 0⟩⟩
  · rw [if_neg h1]
    cases h2 : inp.polePairs with
    | none => exact ⟨rfl, fun _ => ⟨rfl, List.not_mem_nil 0⟩⟩
    | some p =>
      dsimp only
      by_cases h3 : (rampRun inp.actOk (95 / 100) (5 / 100) rampFuel 0 (1 / 10)).2.2
      · rw [if_pos h3]
        refine ⟨rfl, fun _ => ⟨rfl, fun hmem => ?_⟩⟩
        exact absurd rfl (ne_of_gt
          (rampRun_mem_pos inp.actOk (95 / 100) (5 / 100) (by norm_num)
            rampFuel 0 (1 / 10) (by norm_num) 0 hmem))
      · rw [if_neg h3]
        by_cases hf : (measureLoop p inp.telemetry inp.fuel 1 ⟨[], [], []⟩).2 = .fuelOut
        · rw [if_pos hf]
          exact ⟨rfl, fun h => absurd rfl h⟩
        · rw [if_neg hf]
          exact ⟨rfl, fun h => absurd rfl h⟩

/-- Witness for `fatal_error_exits_without_zero_duty`: a run that exits
in the ramp phase (every actuator command fails) never commands zero
duty. -/
theorem fatal_error_exits_without_zero_duty_witness :
    (0 : ℚ) ∉ (runProgram ⟨true, some 7, fun _ => some ⟨5, 3500, 24⟩, fun _ => false, 5⟩).dutyAttempts := by
  have hph : (runProgram ⟨true, some 7, fun _ => some ⟨5, 3500, 24⟩,
      fun _ => false, 5⟩).exitPhase = some .ramp := by
    norm_num [runProgram, rampFuel, rampRun]
  exact ((fatal_error_exits_without_zero_duty
    ⟨true, some 7, fun _ => some ⟨5, 3500, 24⟩, fun _ => false, 5⟩).2
    (by rw [hph]; exact Option.some_ne_none _)).2

end Messung
